/-
Verification of the OwlPlatform cpp-owl-solver connection library
against its natural-language specification.

The development shallowly embeds the three connection managers
(SolverWorldModel, ClientWorldConnection, SolverAggregator) from
  src/solver_world_connection.cpp
  src/client_world_connection.cpp
  src/solver_aggregator_connection.cpp
as pure Lean functions over explicit state records.  External
collaborators (the POSIX regex engine, the socket layer, the wire
codecs) are abstracted as parameters or opaque-free inductive
constructors, exactly at the interfaces the C++ code uses them.
-/
import Mathlib

namespace OwlSolver

/-! ## Association-list maps

`std::map` / `std::set` are modelled as association lists with
insert-or-replace, in-place modify and erase.  Only lookup semantics
matter to the verified claims, not key ordering. -/

/-- Look a key up in an association list (`map::find`). -/
def mapFind? {K V : Type} [DecidableEq K] (k : K) : List (K × V) → Option V
  | [] => none
  | (k', v) :: rest => if k = k' then some v else mapFind? k rest

/-- Insert-or-replace (`map::operator[] = v`). -/
def mapSet {K V : Type} [DecidableEq K] (k : K) (v : V) : List (K × V) → List (K × V)
  | [] => [(k, v)]
  | (k', v') :: rest => if k = k' then (k, v) :: rest else (k', v') :: mapSet k v rest

/-- Modify the value stored at `k` in place, if any (mutation through a
`map::operator[]` reference). -/
def mapModify {K V : Type} [DecidableEq K] (k : K) (f : V → V) : List (K × V) → List (K × V)
  | [] => []
  | (k', v) :: rest => if k = k' then (k', f v) :: rest else (k', v) :: mapModify k f rest

/-- Erase a key (`map::erase`). -/
def mapErase {K V : Type} [DecidableEq K] (k : K) : List (K × V) → List (K × V)
  | [] => []
  | (k', v) :: rest => if k = k' then rest else (k', v) :: mapErase k rest

/-- Remove the first element satisfying `p`
(`std::find_if` followed by `erase` of the found iterator). -/
def eraseFirst {α : Type} (p : α → Bool) : List α → List α
  | [] => []
  | a :: rest => if p a then rest else a :: eraseFirst p rest

/-! ## Solver → world-model connection (`solver_world_connection.cpp`)

Strings are modelled as Lean `String` (the C++ code uses
`std::u16string`; only equality, ordering and length matter here). -/

/-- One compiled on-demand request, `SolverWorldModel::OnDemandArgs`.
The compiled `regex_t exp` is represented by the pattern source
`request`; the behaviour of `regexec` on it is abstracted as a
parameter wherever it is consulted. -/
structure OnDemandArgs where
  request : String
  valid : Bool
  deriving DecidableEq, Repr

/-- `multiset<OnDemandArgs>::insert`: the multiset is ordered by
`request` (`OnDemandArgs::operator<`); equal keys are kept, the new
element going after existing equal ones (upper bound). -/
def msInsert (a : OnDemandArgs) : List OnDemandArgs → List OnDemandArgs
  | [] => [a]
  | b :: rest => if a.request < b.request then a :: b :: rest else b :: msInsert a rest

/-- An attribute update handed to `sendData`, `SolverWorldModel::AttrUpdate`. -/
structure AttrUpdate where
  type : String
  time : Nat
  target : String
  data : List Nat
  deriving DecidableEq, Repr

/-- An entry of an outgoing Solution message, `world_model::solver::SolutionData`. -/
structure SolutionData where
  alias_id : Nat
  time : Nat
  target : String
  data : List Nat
  deriving DecidableEq, Repr

/-- Outbound solver-side wire messages, as produced by the external
codec (`makeSolutionMsg`, `makeKeepAlive`, ...).  Only the
constructors needed by the claims are listed. -/
inductive SolverMsg where
  | solution (create_uris : Bool) (entries : List SolutionData)
  | keepAlive
  deriving DecidableEq, Repr

/-- The solver-side shared state guarded by `trans_mutex`:
the on-demand multisets and the type-alias registry. -/
structure SolverState where
  /-- `std::map<uint32_t, std::multiset<OnDemandArgs>> on_demand_on` -/
  on_demand_on : List (Nat × List OnDemandArgs)
  /-- `std::map<std::u16string, uint32_t> aliases` (type string → alias id) -/
  aliases : List (String × Nat)
  deriving Repr

/-- `start_on_demand` handling in `SolverWorldModel::trackOnDemands`:
for each `(alias, requests)` tuple, compile every request (the compiler
outcome is the abstract parameter `compiles`) and insert the entry into
the alias's multiset; `on_demand_on[alias]` creates an empty multiset
when the alias is absent. -/
def startOnDemand (compiles : String → Bool)
    (trans : List (Nat × List String)) (st : SolverState) : SolverState :=
  trans.foldl (fun st' tr =>
    tr.2.foldl (fun st'' request =>
      let ta : OnDemandArgs := { request := request, valid := compiles request }
      let cur := (mapFind? tr.1 st''.on_demand_on).getD []
      let upd := mapSet tr.1 (msInsert ta cur) st''.on_demand_on
      { st'' with on_demand_on := upd }) st') st

/-- `stop_on_demand` handling in `SolverWorldModel::trackOnDemands`:
for each `(alias, requests)` tuple and each request, if the alias has a
multiset, erase the first entry whose `request` equals the given
pattern (freeing its regex if valid); an absent alias or pattern is a
no-op. -/
def stopOnDemand (trans : List (Nat × List String)) (st : SolverState) : SolverState :=
  trans.foldl (fun st' tr =>
    tr.2.foldl (fun st'' request =>
      match mapFind? tr.1 st''.on_demand_on with
      | none => st''
      | some _ =>
        let upd := mapModify tr.1 (eraseFirst (fun ta => ta.request == request))
          st''.on_demand_on
        { st'' with on_demand_on := upd }) st') st

/-- A decoded message handled by the on-demand tracker thread. -/
inductive TrackerMsg where
  | start (trans : List (Nat × List String))
  | stop (trans : List (Nat × List String))
  deriving Repr

/-- One dispatch step of `SolverWorldModel::trackOnDemands`. -/
def trackStep (compiles : String → Bool) (st : SolverState) : TrackerMsg → SolverState
  | .start ts => startOnDemand compiles ts st
  | .stop ts => stopOnDemand ts st

/-- A whole run of the tracker over a decoded message sequence. -/
def trackRun (compiles : String → Bool) (msgs : List TrackerMsg) (st : SolverState) :
    SolverState :=
  msgs.foldl (trackStep compiles) st

/-- The gating test inside `SolverWorldModel::sendData`: the
`std::any_of` over the alias's multiset.  `rexec pattern target`
abstracts `regexec(&ta.exp, target, 1, &pmatch, 0)`: `none` when
`regexec` reports no match, `some (rm_so, rm_eo)` for the reported
match span.  The lambda returns false for invalid entries, and
otherwise requires `0 == match and 0 == pmatch.rm_so and
target.size() == pmatch.rm_eo`. -/
def gateOpen (rexec : String → String → Option (Nat × Nat))
    (entries : List OnDemandArgs) (target : String) : Bool :=
  entries.any fun ta =>
    if !ta.valid then false
    else
      match rexec ta.request target with
      | none => false
      | some pmatch => pmatch.1 == 0 && pmatch.2 == target.length

/-- The filtering loop of `SolverWorldModel::sendData`: resolve each
update's type through `aliases` (dropping unknown types), include
non-on-demand aliases unconditionally, and include on-demand aliases
only when `gateOpen` accepts the target URI. -/
def sendDataFilter (rexec : String → String → Option (Nat × Nat))
    (st : SolverState) (solution : List AttrUpdate) : List SolutionData :=
  solution.foldl (fun sds u =>
    match mapFind? u.type st.aliases with
    | none => sds
    | some alias_id =>
      match mapFind? alias_id st.on_demand_on with
      | none => sds ++ [⟨alias_id, u.time, u.target, u.data⟩]
      | some entries =>
        if gateOpen rexec entries u.target then
          sds ++ [⟨alias_id, u.time, u.target, u.data⟩]
        else sds) []

/-- `SolverWorldModel::sendData`: filter the updates, then
unconditionally hand a single `makeSolutionMsg(create_uris, sds)`
buffer to `sendAndReconnect` (even when `sds` is empty, as a
keep-alive).  The returned list is the sequence of message buffers
passed to the send path by this call. -/
def sendData (rexec : String → String → Option (Nat × Nat))
    (st : SolverState) (solution : List AttrUpdate) (create_uris : Bool) :
    List SolverMsg :=
  [SolverMsg.solution create_uris (sendDataFilter rexec st solution)]

/-! ### `SolverWorldModel::sendAndReconnect` retry schedule

The loop state is the pair `(first_wait, wait_time)`; each iteration
sleeps `0` seconds when `first_wait` is still set and `wait_time`
seconds otherwise (resetting `wait_time` to 8), then attempts the
send.  `sarSleep n` is the number of seconds slept before attempt `n`
(attempts numbered from 1). -/

/-- The sleep performed at the top of one `while (not sent)` iteration,
returning the slept seconds and the updated `(first_wait, wait_time)`
pair.  The code sets `first_wait = false` at the end of every
iteration. -/
def sarIter : Bool × Nat → Nat × (Bool × Nat)
  | (true, wait_time) => (0, (false, wait_time))
  | (false, wait_time) => (wait_time, (false, 8))

/-- Loop state at the start of attempt `n` (1-based); the entry state
is `first_wait = true`, `wait_time = 1`. -/
def sarStateAt : Nat → Bool × Nat
  | 0 => (true, 1)
  | 1 => (true, 1)
  | n + 1 => (sarIter (sarStateAt n)).2

/-- Seconds slept immediately before attempt `n` (1-based). -/
def sarSleep (n : Nat) : Nat := (sarIter (sarStateAt n)).1

/-- `sendAndReconnect` run against an oracle `ok n` telling whether the
send of attempt `n` succeeds, with bounded fuel: returns the number of
the succeeding attempt, or `none` when no attempt within the fuel
succeeds (the loop keeps running — it never returns failure). -/
def sarRun (ok : Nat → Bool) (fuel : Nat) : Option Nat :=
  (List.range fuel).map Nat.succ |>.find? ok

/-! ## Client → world-model connection (`client_world_connection.cpp`)

A `std::promise<WorldState>` slot is modelled by its observable state:
still pending, fulfilled with a value, or failed with an exception
message.  A `std::queue<promise<WorldState>*>` is a list whose head is
the queue's front and whose last element is the queue's back. -/

/-- One attribute of a world entity (`world_model::Attribute`), after
alias resolution. -/
structure Attr where
  name : String
  creation_date : Nat
  expiration_date : Nat
  origin : String
  data : List Nat
  deriving DecidableEq, Repr

/-- A `WorldState`: map from object URI to its attribute list. -/
abbrev WorldState := List (String × List Attr)

/-- One attribute of a `data_response` before alias resolution
(`world_model::AliasedAttribute`). -/
structure AliasedAttribute where
  name_alias : Nat
  creation_date : Nat
  expiration_date : Nat
  origin_alias : Nat
  data : List Nat
  deriving DecidableEq, Repr

/-- The aliased world data of one `data_response`
(`world_model::AliasedWorldData`). -/
structure AliasedWorldData where
  object_uri : String
  attributes : List AliasedAttribute
  deriving Repr

/-- Observable state of one `std::promise<WorldState>` slot. -/
inductive SlotState where
  | pending
  | value (ws : WorldState)
  | error (msg : String)
  deriving DecidableEq, Repr

/-- `promise::set_value` on a pending slot.  (On an already satisfied
promise the C++ call throws `std::future_error`; every modelled call
site reaches only pending slots, which is what this transition
captures, and a satisfied slot is returned unchanged.) -/
def fulfillValue (ws : WorldState) : SlotState → SlotState
  | .pending => .value ws
  | s => s

/-- `promise::set_exception` on a pending slot (same caveat as
`fulfillValue`). -/
def fulfillError (msg : String) : SlotState → SlotState
  | .pending => .error msg
  | s => s

/-- Apply `f` to the front of a queue (`queue::front()`), leaving an
empty queue unchanged. -/
def modifyFront {α : Type} (f : α → α) : List α → List α
  | [] => []
  | a :: rest => f a :: rest

/-- Apply `f` to the back of a queue (`queue::back()`), leaving an
empty queue unchanged. -/
def modifyBack {α : Type} (f : α → α) : List α → List α
  | [] => []
  | [a] => [f a]
  | a :: b :: rest => a :: modifyBack f (b :: rest)

/-- The shared state of a `ClientWorldConnection` guarded by
`promise_mutex`, plus the alias tables (written only by the receive
thread). -/
structure ClientState where
  /-- `std::map<uint64_t, std::queue<std::promise<WorldState>*>> step_promises` -/
  step_promises : List (Nat × List SlotState)
  /-- `std::set<uint64_t> single_response` -/
  single_response : List Nat
  /-- `std::map<uint64_t, world_model::WorldState> partial_results` -/
  partial_results : List (Nat × WorldState)
  /-- `std::map<uint64_t, std::exception> errors` (the what-strings) -/
  errors : List (Nat × String)
  /-- `std::map<uint32_t, std::u16string> known_attributes` -/
  known_attributes : List (Nat × String)
  /-- `std::map<uint32_t, std::u16string> known_origins` -/
  known_origins : List (Nat × String)
  deriving Repr

/-- `std::map::operator[]` used for reading: returns the stored string
and the (possibly extended) table — a missing key is
default-constructed as the empty string and inserted. -/
def tableLookup (tbl : List (Nat × String)) (k : Nat) : String × List (Nat × String) :=
  match mapFind? k tbl with
  | some v => (v, tbl)
  | none => ("", mapSet k "" tbl)

/-- Alias resolution in the `data_response` branch of
`ClientWorldConnection::receiveThread`: each `AliasedAttribute` becomes
an `Attribute` whose name and origin are read from the alias tables
with `operator[]`.  Returns the resolved attribute list together with
the two (possibly extended) tables. -/
def resolveAttributes (attrs : List AliasedAttribute)
    (known_attributes known_origins : List (Nat × String)) :
    List Attr × List (Nat × String) × List (Nat × String) :=
  match attrs with
  | [] => ([], known_attributes, known_origins)
  | a :: rest =>
    let n := tableLookup known_attributes a.name_alias
    let o := tableLookup known_origins a.origin_alias
    let r := resolveAttributes rest n.2 o.2
    (⟨n.1, a.creation_date, a.expiration_date, o.1, a.data⟩ :: r.1, r.2.1, r.2.2)

/-- The `data_response` branch of
`ClientWorldConnection::receiveThread`: resolve the aliased
attributes, then (under `promise_mutex`) either merge into
`partial_results[ticket][uri]` for a Single ticket, or fulfil the back
slot of the ticket's queue with a one-entry `WorldState` and push a
fresh pending slot for a Stream ticket; an unknown ticket leaves the
promise state untouched. -/
def processDataResponse (st : ClientState) (awd : AliasedWorldData) (ticket : Nat) :
    ClientState :=
  let r := resolveAttributes awd.attributes st.known_attributes st.known_origins
  let st := { st with known_attributes := r.2.1, known_origins := r.2.2 }
  if ticket ∈ st.single_response then
    let cur : WorldState := (mapFind? ticket st.partial_results).getD []
    let upd := mapSet ticket (mapSet awd.object_uri r.1 cur) st.partial_results
    { st with partial_results := upd }
  else
    match mapFind? ticket st.step_promises with
    | none => st
    | some _ =>
      let ws : WorldState := [(awd.object_uri, r.1)]
      let upd := mapModify ticket
        (fun q => modifyBack (fulfillValue ws) q ++ [SlotState.pending]) st.step_promises
      { st with step_promises := upd }

/-- The `request_complete` branch of
`ClientWorldConnection::receiveThread`: for a live ticket (present in
`step_promises`), a Single ticket (member of `single_response`) has
its front slot fulfilled with `partial_results[ticket]` — an absent
entry default-constructs to the empty `WorldState` — and the partial
result erased; a Stream ticket has its back slot fulfilled with an
empty `WorldState`.  The slot queue itself is never removed here. -/
def processRequestComplete (st : ClientState) (ticket : Nat) : ClientState :=
  match mapFind? ticket st.step_promises with
  | none => st
  | some _ =>
    if ticket ∈ st.single_response then
      let acc : WorldState := (mapFind? ticket st.partial_results).getD []
      let upd := mapModify ticket (modifyFront (fulfillValue acc)) st.step_promises
      { st with step_promises := upd, partial_results := mapErase ticket st.partial_results }
    else
      let upd := mapModify ticket (modifyBack (fulfillValue [])) st.step_promises
      { st with step_promises := upd }

/-- `ClientWorldConnection::markFinished`: drop the ticket's queue,
deleting every slot in it (without resolving any).  Returns the new
state together with the list of slots destroyed, in the states they
held at deletion time. -/
def markFinished (st : ClientState) (ticket : Nat) : ClientState × List SlotState :=
  match mapFind? ticket st.step_promises with
  | none => (st, [])
  | some q => ({ st with step_promises := mapErase ticket st.step_promises }, q)

/-- `ClientWorldConnection::~ClientWorldConnection`: for every
remaining ticket, `set_exception` on the **front** slot of its queue,
then delete every slot of the queue.  The result is the full list of
slots destroyed, in the states they held at deletion time. -/
def destructorSlots (st : ClientState) : List SlotState :=
  (st.step_promises.map (fun tq =>
    modifyFront (fulfillError "World Model Connection object is being destroyed") tq.2)).flatten

/-! ## Reconnect handshakes

The socket layer is abstracted: `connect_succeeds` is the outcome of
opening a fresh TCP socket when none is held, `reply` is the byte
sequence actually read back after sending the fixed `handshake`
byte-string (a short read yields fewer bytes), and, for the solver,
`type_announce_ok` is whether sending the TypeAnnounce message
throws.  Each model returns `(socket_connected_after, result)`. -/

structure ConnIO where
  connect_succeeds : Bool
  reply : List Nat
  type_announce_ok : Bool
  deriving Repr

/-- The handshake acceptance test shared by all three connection
managers: `length == handshake.size() and std::equal(handshake.begin(),
handshake.end(), raw_message.begin())`. -/
def handshakeOk (handshake reply : List Nat) : Bool :=
  reply.length == handshake.length && reply == handshake

/-- `ClientWorldConnection::reconnect` (minus thread management): open
a socket if none is held (failure → return false, still unconnected);
exchange the handshake; on a short read or byte mismatch **clear the
socket** (assign a null socket) and return false; otherwise keep the
socket and return true. -/
def clientReconnect (handshake : List Nat) (io : ConnIO) (sock_up : Bool) : Bool × Bool :=
  if !sock_up && !io.connect_succeeds then (false, false)
  else if handshakeOk handshake io.reply then (true, true)
  else (false, false)

/-- `SolverWorldModel::reconnect`: open a socket if none is held
(failure → return false); exchange the handshake; on a short read or
byte mismatch return false **without touching the socket**; then send
the TypeAnnounce message, returning false (socket kept) if that
throws; otherwise return true. -/
def solverReconnect (handshake : List Nat) (io : ConnIO) (sock_up : Bool) : Bool × Bool :=
  if !sock_up && !io.connect_succeeds then (false, false)
  else if !handshakeOk handshake io.reply then (true, false)
  else if !io.type_announce_ok then (true, false)
  else (true, true)

/-! ## Solver → aggregator worker (`solver_aggregator_connection.cpp`) -/

/-- Outcome of one iteration of the outer `while` loop of
`grailAggregatorThread`, up to the point where the inner message loop
would be entered. -/
inductive AggOutcome where
  /-- the thread executes `return;` and terminates -/
  | terminated
  /-- the iteration falls through to `sleep(1)` and re-enters the outer loop -/
  | retryAfterSleep (secs : Nat)
  /-- connection and handshake succeeded; the subscriptions are sent
  and the inner receive loop is entered -/
  | enterInnerLoop
  deriving DecidableEq, Repr

/-- One outer-loop iteration of `grailAggregatorThread` (entered only
while the interrupt is not `close_connection`): a failed TCP connect
skips the body and reaches the `sleep(1)` retry; a handshake reply that
is short or differs from the sent bytes executes `return;`; an
exception from the body is caught and also reaches the `sleep(1)`
retry; otherwise the inner loop is entered. -/
def aggConnectStep (handshake : List Nat) (connect_ok : Bool) (reply : List Nat)
    (body_throws : Bool) : AggOutcome :=
  if body_throws then .retryAfterSleep 1
  else if !connect_ok then .retryAfterSleep 1
  else if !handshakeOk handshake reply then .terminated
  else .enterInnerLoop

/-- `ClientWorldConnection::makeStepPromise`: install a fresh queue
holding one pending slot for `key` and clear any recorded error for
it. -/
def makeStepPromise (st : ClientState) (key : Nat) : ClientState :=
  { st with step_promises := mapSet key [SlotState.pending] st.step_promises,
            errors := mapErase key st.errors }

/-- A `ClientWorldConnection` with no live requests and empty alias
tables. -/
def emptyClient : ClientState := ⟨[], [], [], [], [], []⟩

/-- Number of entries of an on-demand multiset whose pattern source is
`p`, for the given alias. -/
def countReq (st : SolverState) (al : Nat) (p : String) : Nat :=
  ((mapFind? al st.on_demand_on).getD []).countP (fun ta => ta.request == p)

/-! ## Helper lemmas about the association-list primitives -/

theorem mapFind?_mapSet_self {K V : Type} [DecidableEq K] (k : K) (v : V)
    (m : List (K × V)) : mapFind? k (mapSet k v m) = some v := by
  induction m with
  | nil => simp [mapSet, mapFind?]
  | cons kv rest ih =>
    by_cases h : k = kv.1
    · simp [mapSet, mapFind?, h]
    · simpa [mapSet, mapFind?, h] using ih

theorem mapFind?_mapModify_self {K V : Type} [DecidableEq K] (k : K) (f : V → V)
    (m : List (K × V)) : mapFind? k (mapModify k f m) = (mapFind? k m).map f := by
  induction m with
  | nil => simp [mapModify, mapFind?]
  | cons kv rest ih =>
    by_cases h : k = kv.1
    · simp [mapModify, mapFind?, h]
    · simpa [mapModify, mapFind?, h] using ih

theorem mapFind?_eq_none {K V : Type} [DecidableEq K] (k : K) (m : List (K × V))
    (h : k ∉ m.map Prod.fst) : mapFind? k m = none := by
  induction m with
  | nil => rfl
  | cons kv rest ih =>
    simp only [List.map_cons, List.mem_cons] at h
    push_neg at h
    simp [mapFind?, h.1, ih h.2]

theorem mapFind?_mapErase_self {K V : Type} [DecidableEq K] (k : K)
    (m : List (K × V)) (hnd : (m.map Prod.fst).Nodup) :
    mapFind? k (mapErase k m) = none := by
  induction m with
  | nil => rfl
  | cons kv rest ih =>
    simp only [List.map_cons, List.nodup_cons] at hnd
    by_cases h : k = kv.1
    · subst h
      simpa [mapErase] using mapFind?_eq_none _ _ hnd.1
    · simp [mapErase, mapFind?, h, ih hnd.2]

theorem mapModify_eq_self {K V : Type} [DecidableEq K] (k : K) (f : V → V)
    (m : List (K × V)) (h : ∀ v, mapFind? k m = some v → f v = v) :
    mapModify k f m = m := by
  induction m with
  | nil => simp [mapModify]
  | cons kv rest ih =>
    by_cases hk : k = kv.1
    · have : f kv.2 = kv.2 := h kv.2 (by simp [mapFind?, hk])
      simp [mapModify, hk, this]
    · have : mapModify k f rest = rest := by
        refine ih fun v hv => h v ?_
        simpa [mapFind?, hk] using hv
      simp [mapModify, hk, this]

theorem eraseFirst_eq_self {α : Type} (p : α → Bool) (l : List α)
    (h : ∀ a ∈ l, p a = false) : eraseFirst p l = l := by
  induction l with
  | nil => rfl
  | cons a rest ih =>
    have ha : p a = false := h a (by simp)
    have : eraseFirst p rest = rest := ih fun b hb => h b (by simp [hb])
    simp [eraseFirst, ha, this]

theorem countP_msInsert (a : OnDemandArgs) (l : List OnDemandArgs)
    (q : OnDemandArgs → Bool) :
    (msInsert a l).countP q = l.countP q + (if q a then 1 else 0) := by
  induction l with
  | nil => by_cases h : q a <;> simp [msInsert, List.countP_cons, h]
  | cons b rest ih =>
    by_cases hlt : a.request < b.request
    · by_cases h : q a <;> by_cases hb : q b <;>
        simp [msInsert, hlt, List.countP_cons, h, hb] <;> omega
    · by_cases hb : q b <;> simp [msInsert, hlt, List.countP_cons, hb, ih] <;> omega

theorem countP_eraseFirst {α : Type} (q : α → Bool) (l : List α) :
    (eraseFirst q l).countP q = l.countP q - 1 := by
  induction l with
  | nil => rfl
  | cons a rest ih =>
    by_cases h : q a
    · simp [eraseFirst, h, List.countP_cons]
    · simp [eraseFirst, h, List.countP_cons, ih]

/-- The `std::any_of` gate accepts a target exactly when some valid
entry's regex reports a match spanning the whole target. -/
theorem gateOpen_iff (rexec : String → String → Option (Nat × Nat))
    (entries : List OnDemandArgs) (t : String) :
    gateOpen rexec entries t = true ↔
      ∃ ta ∈ entries, ta.valid = true ∧ rexec ta.request t = some (0, t.length) := by
  unfold gateOpen
  rw [List.any_eq_true]
  constructor
  · rintro ⟨ta, hmem, hp⟩
    refine ⟨ta, hmem, ?_⟩
    cases hv : ta.valid with
    | false => simp [hv] at hp
    | true =>
      refine ⟨rfl, ?_⟩
      cases hr : rexec ta.request t with
      | none => simp [hv, hr] at hp
      | some pm =>
        simp only [hv, Bool.not_true, Bool.false_eq_true, if_false, hr,
          Bool.and_eq_true, beq_iff_eq] at hp
        obtain ⟨h1, h2⟩ := hp
        cases pm
        simp_all
  · rintro ⟨ta, hmem, hv, hr⟩
    exact ⟨ta, hmem, by simp [hv, hr]⟩

/-- A concrete regex-engine behaviour for the pattern `"foo"` run on
the string `"foobar"`: POSIX `regexec` finds the leftmost match at
offset 0 of length 3 (a *partial* match of the URI). -/
def rexFoo : String → String → Option (Nat × Nat) :=
  fun p t => if p == "foo" && t == "foobar" then some (0, 3) else none

/-- Solver state with a single on-demand type `"temp"` (alias 1) whose
multiset holds the one valid pattern `"foo"`. -/
def stFoo : SolverState := ⟨[(1, [⟨"foo", true⟩])], [("temp", 1)]⟩

/-- **C1.** In `SolverWorldModel::sendData`, an attribute update whose
type resolves to an on-demand alias is included in the outgoing
Solution message iff at least one valid entry of that alias's multiset
has its compiled regex match the update's URI starting at offset 0
with match end equal to the URI's length; and concretely, a partial
match (pattern `"foo"` reported at span `(0, 3)` against the URI
`"foobar"`) does not gate the update open. -/
theorem sendData_on_demand_full_match_gating
    (rexec : String → String → Option (Nat × Nat)) (st : SolverState)
    (u : AttrUpdate) (alias_id : Nat) (entries : List OnDemandArgs) (cu : Bool)
    (htype : mapFind? u.type st.aliases = some alias_id)
    (hod : mapFind? alias_id st.on_demand_on = some entries) :
    ((SolutionData.mk alias_id u.time u.target u.data ∈ sendDataFilter rexec st [u]) ↔
      ∃ ta ∈ entries, ta.valid = true ∧
        rexec ta.request u.target = some (0, u.target.length)) ∧
    sendData rexec st [u] cu
      = [SolverMsg.solution cu (sendDataFilter rexec st [u])] ∧
    ¬ (SolutionData.mk 1 0 "foobar" [] ∈
        sendDataFilter rexFoo stFoo [⟨"temp", 0, "foobar", []⟩]) := by
  refine ⟨?_, rfl, by decide⟩
  have hmem : (SolutionData.mk alias_id u.time u.target u.data ∈
      sendDataFilter rexec st [u]) ↔ gateOpen rexec entries u.target = true := by
    by_cases hg : gateOpen rexec entries u.target = true
    · simp [sendDataFilter, htype, hod, hg]
    · simp [sendDataFilter, htype, hod, hg]
  exact hmem.trans (gateOpen_iff rexec entries u.target)

/-- Witness for `sendData_on_demand_full_match_gating`, at the
`"foo"`/`"foobar"` scenario: the gate stays closed because the only
reported match span `(0, 3)` does not reach the URI's length 6. -/
theorem sendData_on_demand_full_match_gating_witness :
    ((SolutionData.mk 1 0 "foobar" [] ∈
        sendDataFilter rexFoo stFoo [⟨"temp", 0, "foobar", []⟩]) ↔
      ∃ ta ∈ [OnDemandArgs.mk "foo" true], ta.valid = true ∧
        rexFoo ta.request "foobar" = some (0, "foobar".length)) ∧
    sendData rexFoo stFoo [⟨"temp", 0, "foobar", []⟩] true
      = [SolverMsg.solution true (sendDataFilter rexFoo stFoo [⟨"temp", 0, "foobar", []⟩])] ∧
    ¬ (SolutionData.mk 1 0 "foobar" [] ∈
        sendDataFilter rexFoo stFoo [⟨"temp", 0, "foobar", []⟩]) :=
  sendData_on_demand_full_match_gating rexFoo stFoo ⟨"temp", 0, "foobar", []⟩ 1
    [⟨"foo", true⟩] true (by decide) (by decide)

/-- **C9.** Every call to `SolverWorldModel::sendData` hands exactly
one buffer to the send path, a Solution message carrying the
`create_uris` flag — also when the post-filtering entry list is empty,
as in the concrete state where one update's type is an unrequested
on-demand type and the other's is unregistered, so the send doubles as
a keep-alive heartbeat. -/
theorem sendData_always_one_solution_message
    (rexec : String → String → Option (Nat × Nat)) (st : SolverState)
    (solution : List AttrUpdate) (cu : Bool) :
    (sendData rexec st solution cu).length = 1 ∧
    (∀ m ∈ sendData rexec st solution cu,
      m = SolverMsg.solution cu (sendDataFilter rexec st solution)) ∧
    sendData rexec ⟨[(1, [])], [("temp", 1)]⟩
      [⟨"temp", 0, "u", []⟩, ⟨"other", 0, "u", []⟩] cu
      = [SolverMsg.solution cu []] := by
  refine ⟨rfl, ?_, ?_⟩
  · intro m hm
    simpa [sendData] using hm
  · have : sendDataFilter rexec ⟨[(1, [])], [("temp", 1)]⟩
        [⟨"temp", 0, "u", []⟩, ⟨"other", 0, "u", []⟩] = [] := by
      simp [sendDataFilter, mapFind?, gateOpen]
    simp [sendData, this]

/-- **C2** (code bug).  The retry schedule of
`SolverWorldModel::sendAndReconnect`: the initial attempt sleeps 0
seconds, but the **first retry sleeps 1 second** — not 0 as the claim
(and the doc comment on `sendAndReconnect` in
`solver_world_connection.hpp`, "First retry is immediate") states —
and every retry from the second on sleeps 8 seconds. -/
theorem sendAndReconnect_backoff_schedule :
    sarSleep 1 = 0 ∧ sarSleep 2 = 1 ∧ sarSleep 3 = 8 ∧ sarSleep 4 = 8 ∧
    sarSleep 5 = 8 ∧ ¬ sarSleep 2 = 0 := by
  decide

/-- **C5** (code bug).  A live stream ticket whose queue holds an
already-fulfilled head and a fresh pending tail — the state produced
by `makeStepPromise` followed by one `data_response` — reaches
`~ClientWorldConnection` with its tail slot still pending: the
destructor exception-fails only the front slot, so a pending slot is
among the slots destroyed, contradicting "no slot is destroyed while
still unresolved". -/
theorem destructor_leaks_pending_slot :
    SlotState.pending ∈
      destructorSlots
        (processDataResponse (makeStepPromise emptyClient 0) ⟨"u", []⟩ 0) := by
  decide

/-- `processDataResponse` never touches the error map: no ticket is
failed by a `data_response`. -/
theorem processDataResponse_errors (st : ClientState) (awd : AliasedWorldData)
    (ticket : Nat) : (processDataResponse st awd ticket).errors = st.errors := by
  unfold processDataResponse
  dsimp only
  split
  · rfl
  · split <;> rfl

/-- `processDataResponse` never changes the Single/Stream partition. -/
theorem processDataResponse_single_response (st : ClientState)
    (awd : AliasedWorldData) (ticket : Nat) :
    (processDataResponse st awd ticket).single_response = st.single_response := by
  unfold processDataResponse
  dsimp only
  split
  · rfl
  · split <;> rfl

/-- For a Single ticket, `processDataResponse` performs exactly the
`partial_results[ticket][uri] = attrs` assignment. -/
theorem processDataResponse_partial_single (st : ClientState)
    (awd : AliasedWorldData) (ticket : Nat) (hs : ticket ∈ st.single_response) :
    (processDataResponse st awd ticket).partial_results =
      mapSet ticket (mapSet awd.object_uri
          (resolveAttributes awd.attributes st.known_attributes st.known_origins).1
          ((mapFind? ticket st.partial_results).getD [])) st.partial_results := by
  unfold processDataResponse
  simp [hs]

/-- **C4.** The `request_complete` branch of the client receive
thread, for a live ticket: a Single ticket's head slot is fulfilled
with the accumulated partial result and the partial result is erased;
a Stream ticket's current tail slot is fulfilled with an empty
`WorldState` (the end-of-stream sentinel) and the slot queue stays in
place (still registered for the ticket). -/
theorem requestComplete_fulfils_slots (st : ClientState) (ticket : Nat)
    (q : List SlotState)
    (hq : mapFind? ticket st.step_promises = some q)
    (hnd : (st.partial_results.map Prod.fst).Nodup) :
    (ticket ∈ st.single_response →
      mapFind? ticket (processRequestComplete st ticket).step_promises =
        some (modifyFront
          (fulfillValue ((mapFind? ticket st.partial_results).getD [])) q) ∧
      mapFind? ticket (processRequestComplete st ticket).partial_results = none) ∧
    (ticket ∉ st.single_response →
      mapFind? ticket (processRequestComplete st ticket).step_promises =
        some (modifyBack (fulfillValue []) q) ∧
      (processRequestComplete st ticket).partial_results = st.partial_results) := by
  constructor
  · intro hs
    unfold processRequestComplete
    rw [hq]
    dsimp only
    rw [if_pos hs]
    dsimp only
    constructor
    · rw [mapFind?_mapModify_self, hq]
      rfl
    · exact mapFind?_mapErase_self ticket st.partial_results hnd
  · intro hs
    unfold processRequestComplete
    rw [hq]
    dsimp only
    rw [if_neg hs]
    dsimp only
    constructor
    · rw [mapFind?_mapModify_self, hq]
      rfl
    · rfl

/-- A client state with one live Single ticket (5, with one pending
slot and an accumulated partial result) and one live Stream ticket
(7, with a fulfilled head and a pending tail). -/
def stC4 : ClientState :=
  { step_promises := [(5, [SlotState.pending]),
                      (7, [SlotState.value [("u1", [])], SlotState.pending])],
    single_response := [5],
    partial_results := [(5, [("u1", [])])],
    errors := [], known_attributes := [], known_origins := [] }

/-- Witness for `requestComplete_fulfils_slots` at ticket 5 of `stC4`. -/
theorem requestComplete_fulfils_slots_witness :
    ((5 ∈ stC4.single_response →
      mapFind? 5 (processRequestComplete stC4 5).step_promises =
        some (modifyFront
          (fulfillValue ((mapFind? 5 stC4.partial_results).getD []))
          [SlotState.pending]) ∧
      mapFind? 5 (processRequestComplete stC4 5).partial_results = none) ∧
    (5 ∉ stC4.single_response →
      mapFind? 5 (processRequestComplete stC4 5).step_promises =
        some (modifyBack (fulfillValue []) [SlotState.pending]) ∧
      (processRequestComplete stC4 5).partial_results = stC4.partial_results)) :=
  requestComplete_fulfils_slots stC4 5 [SlotState.pending] (by decide) (by decide)

/-- **C8.** When the client receive thread processes a `data_response`
referencing an attribute-name alias and an origin alias absent from
the alias tables, the resolved attribute carries the empty string for
both (default-constructed `std::map::operator[]` lookup), the message
is still merged into the ticket's partial result as usual, and no
error is raised for any ticket (`errors` is untouched by every
`data_response`). -/
theorem dataResponse_missing_alias_empty_string (st : ClientState)
    (a : AliasedAttribute) (uri : String) (ticket : Nat)
    (hna : mapFind? a.name_alias st.known_attributes = none)
    (hoa : mapFind? a.origin_alias st.known_origins = none)
    (hs : ticket ∈ st.single_response) :
    (resolveAttributes [a] st.known_attributes st.known_origins).1
      = [⟨"", a.creation_date, a.expiration_date, "", a.data⟩] ∧
    mapFind? ticket (processDataResponse st ⟨uri, [a]⟩ ticket).partial_results
      = some (mapSet uri [⟨"", a.creation_date, a.expiration_date, "", a.data⟩]
          ((mapFind? ticket st.partial_results).getD [])) ∧
    (∀ st' awd' t',
      (processDataResponse st' awd' t').errors = st'.errors) := by
  have hres : (resolveAttributes [a] st.known_attributes st.known_origins).1
      = [⟨"", a.creation_date, a.expiration_date, "", a.data⟩] := by
    simp [resolveAttributes, tableLookup, hna, hoa]
  refine ⟨hres, ?_, fun st' awd' t' => processDataResponse_errors st' awd' t'⟩
  rw [processDataResponse_partial_single st ⟨uri, [a]⟩ ticket hs]
  rw [mapFind?_mapSet_self]
  simpa using congrArg (fun l => some (mapSet uri l
    ((mapFind? ticket st.partial_results).getD []))) hres

/-- An empty client with one live Single ticket 0. -/
def stC8 : ClientState := { emptyClient with single_response := [0] }

/-- Witness for `dataResponse_missing_alias_empty_string`: an empty
client with one Single ticket 0 receives a `data_response` whose
attribute uses the undeclared aliases 3 (name) and 4 (origin). -/
theorem dataResponse_missing_alias_empty_string_witness :
    ((resolveAttributes [⟨3, 10, 20, 4, [7]⟩]
        stC8.known_attributes stC8.known_origins).1
      = [⟨"", 10, 20, "", [7]⟩] ∧
    mapFind? 0 (processDataResponse stC8
        ⟨"u1", [⟨3, 10, 20, 4, [7]⟩]⟩ 0).partial_results
      = some (mapSet "u1" [⟨"", 10, 20, "", [7]⟩]
          ((mapFind? 0 stC8.partial_results).getD [])) ∧
    (∀ st' awd' t',
      (processDataResponse st' awd' t').errors = st'.errors)) :=
  dataResponse_missing_alias_empty_string stC8
    ⟨3, 10, 20, 4, [7]⟩ "u1" 0 (by decide) (by decide) (by decide)

/-- **C10.** For a Single ticket, two `data_response` messages with the
same object URI accumulate by plain assignment
`partial_results[ticket][uri] = attrs`: after the second message the
entry for the URI holds exactly the attribute list resolved from the
second message (last write wins), with no union of the first
message's attributes. -/
theorem single_accumulation_last_write_wins (st : ClientState) (ticket : Nat)
    (awd1 awd2 : AliasedWorldData)
    (huri : awd1.object_uri = awd2.object_uri)
    (hs : ticket ∈ st.single_response) :
    (mapFind? ticket ((processDataResponse
          (processDataResponse st awd1 ticket) awd2 ticket).partial_results)).bind
        (fun ws => mapFind? awd2.object_uri ws)
      = some ((resolveAttributes awd2.attributes
          (processDataResponse st awd1 ticket).known_attributes
          (processDataResponse st awd1 ticket).known_origins).1) := by
  have hs1 : ticket ∈ (processDataResponse st awd1 ticket).single_response := by
    rw [processDataResponse_single_response]
    exact hs
  rw [processDataResponse_partial_single _ awd2 ticket hs1]
  rw [mapFind?_mapSet_self]
  simp [mapFind?_mapSet_self]

/-- Witness for `single_accumulation_last_write_wins`: ticket 0 of
`stC8` receives two `data_response` messages for URI `"u1"`. -/
theorem single_accumulation_last_write_wins_witness :
    (mapFind? 0 ((processDataResponse
          (processDataResponse stC8 ⟨"u1", [⟨1, 0, 0, 1, [1]⟩]⟩ 0)
          ⟨"u1", [⟨2, 5, 6, 2, [2]⟩]⟩ 0).partial_results)).bind
        (fun ws => mapFind? "u1" ws)
      = some ((resolveAttributes [⟨2, 5, 6, 2, [2]⟩]
          (processDataResponse stC8 ⟨"u1", [⟨1, 0, 0, 1, [1]⟩]⟩ 0).known_attributes
          (processDataResponse stC8 ⟨"u1", [⟨1, 0, 0, 1, [1]⟩]⟩ 0).known_origins).1) :=
  single_accumulation_last_write_wins stC8 0 ⟨"u1", [⟨1, 0, 0, 1, [1]⟩]⟩
    ⟨"u1", [⟨2, 5, 6, 2, [2]⟩]⟩ (by decide) (by decide)

/-- **C6** (counterexample).  `SolverWorldModel::reconnect` does *not*
clear the socket on a handshake mismatch: with an open socket and a
reply differing from the sent handshake it returns `false` while the
socket stays connected (first component `true`), contradicting the
claim that both reconnect implementations leave the connection
unconnected. -/
theorem solverReconnect_mismatch_keeps_socket :
    solverReconnect [1, 2, 3, 4] ⟨true, [9, 9, 9, 9], true⟩ true = (true, false) := by
  decide

/-- **C6** (amended).  On a handshake reply that is short or differs
from the sent bytes, `ClientWorldConnection::reconnect` clears the
socket and returns false, while `SolverWorldModel::reconnect` returns
false but leaves the socket connected (it does not clear it). -/
theorem reconnect_handshake_mismatch (handshake : List Nat) (io : ConnIO)
    (hm : io.reply ≠ handshake) :
    clientReconnect handshake io true = (false, false) ∧
    (solverReconnect handshake io true).2 = false ∧
    (solverReconnect handshake io true).1 = true := by
  have hok : handshakeOk handshake io.reply = false := by
    unfold handshakeOk
    simp [hm]
  refine ⟨?_, ?_, ?_⟩ <;> simp [clientReconnect, solverReconnect, hok]

/-- Witness for `reconnect_handshake_mismatch` at a concrete
mismatched reply. -/
theorem reconnect_handshake_mismatch_witness :
    clientReconnect [1, 2, 3, 4] ⟨true, [9, 9, 9, 9], true⟩ true = (false, false) ∧
    (solverReconnect [1, 2, 3, 4] ⟨true, [9, 9, 9, 9], true⟩ true).2 = false ∧
    (solverReconnect [1, 2, 3, 4] ⟨true, [9, 9, 9, 9], true⟩ true).1 = true :=
  reconnect_handshake_mismatch [1, 2, 3, 4] ⟨true, [9, 9, 9, 9], true⟩ (by decide)

/-- **C7** (counterexample).  In `grailAggregatorThread`, a handshake
reply that does not byte-equal the sent handshake executes `return;`:
the outcome is `terminated`, not a 1-second retry of the outer connect
loop. -/
theorem aggregator_handshake_mismatch_terminates :
    aggConnectStep [1, 2] true [9, 9] false = AggOutcome.terminated ∧
    AggOutcome.terminated ≠ AggOutcome.retryAfterSleep 1 := by
  decide

/-- **C7** (amended).  The aggregator worker terminates on a handshake
mismatch; the 1-second wait-and-retry of the outer connect loop
applies to a failed TCP connect and to exceptions thrown inside the
body, not to a handshake mismatch. -/
theorem aggregator_handshake_vs_retry (handshake reply : List Nat)
    (hm : reply ≠ handshake) :
    aggConnectStep handshake true reply false = AggOutcome.terminated ∧
    aggConnectStep handshake false reply false = AggOutcome.retryAfterSleep 1 ∧
    aggConnectStep handshake true handshake true = AggOutcome.retryAfterSleep 1 := by
  have hok : handshakeOk handshake reply = false := by
    unfold handshakeOk
    simp [hm]
  refine ⟨?_, ?_, ?_⟩ <;> simp [aggConnectStep, hok]

/-- Witness for `aggregator_handshake_vs_retry` at a concrete
mismatched reply. -/
theorem aggregator_handshake_vs_retry_witness :
    aggConnectStep [1, 2] true [9, 9] false = AggOutcome.terminated ∧
    aggConnectStep [1, 2] false [9, 9] false = AggOutcome.retryAfterSleep 1 ∧
    aggConnectStep [1, 2] true [1, 2] true = AggOutcome.retryAfterSleep 1 :=
  aggregator_handshake_vs_retry [1, 2] [9, 9] (by decide)

/-- One `start_on_demand(al, [p])` message adds exactly one entry with
source `p` to the alias's multiset. -/
theorem countReq_start (compiles : String → Bool) (st : SolverState)
    (al : Nat) (p : String) :
    countReq (startOnDemand compiles [(al, [p])] st) al p = countReq st al p + 1 := by
  unfold startOnDemand countReq
  dsimp only [List.foldl]
  rw [mapFind?_mapSet_self]
  simp [countP_msInsert]

/-- One `stop_on_demand(al, [p])` message removes exactly one entry
with source `p` from the alias's multiset (truncating at zero). -/
theorem countReq_stop (st : SolverState) (al : Nat) (p : String) :
    countReq (stopOnDemand [(al, [p])] st) al p = countReq st al p - 1 := by
  unfold stopOnDemand countReq
  dsimp only [List.foldl]
  cases hf : mapFind? al st.on_demand_on with
  | none => simp [hf]
  | some l => simp [hf, mapFind?_mapModify_self, countP_eraseFirst]

/-- A `stop_on_demand(al, [p])` with no entry of source `p` present
(in particular, with the alias unknown) leaves the state unchanged. -/
theorem stopOnDemand_noop (st : SolverState) (al : Nat) (p : String)
    (h0 : countReq st al p = 0) : stopOnDemand [(al, [p])] st = st := by
  unfold stopOnDemand
  dsimp only [List.foldl]
  cases hf : mapFind? al st.on_demand_on with
  | none => rfl
  | some l =>
    unfold countReq at h0
    rw [hf] at h0
    simp only [Option.getD_some] at h0
    have hall : ∀ ta ∈ l, (ta.request == p) = false := by
      intro ta hta
      have := List.countP_eq_zero.mp h0 ta hta
      simpa using this
    have herase : eraseFirst (fun ta => ta.request == p) l = l :=
      eraseFirst_eq_self _ l hall
    have hmod : mapModify al (eraseFirst (fun ta => ta.request == p))
        st.on_demand_on = st.on_demand_on := by
      refine mapModify_eq_self al _ _ ?_
      intro v hv
      rw [hf] at hv
      cases hv
      exact herase
    simp [hmod]

/-- Encoding of the claim's message sequence: `true` encodes
`start_on_demand(al, [p])` and `false` encodes `stop_on_demand(al, [p])`. -/
def encodeMsg (al : Nat) (p : String) (b : Bool) : TrackerMsg :=
  if b then .start [(al, [p])] else .stop [(al, [p])]

/-- The running count of `p`-entries under a balanced sequence of
starts and stops: every prefix having at least as many starts as stops
(relative to the initial count), the final count is
`initial + #starts - #stops`. -/
theorem countReq_trackRun (compiles : String → Bool) (al : Nat) (p : String) :
    ∀ (bs : List Bool) (st : SolverState),
      (∀ n, (bs.take n).countP (fun b => !b)
        ≤ countReq st al p + (bs.take n).countP (fun b => b)) →
      countReq (trackRun compiles (bs.map (encodeMsg al p)) st) al p
        = countReq st al p + bs.countP (fun b => b) - bs.countP (fun b => !b) := by
  intro bs
  induction bs with
  | nil =>
    intro st _
    simp [trackRun]
  | cons b rest ih =>
    intro st h
    have hrun : trackRun compiles ((b :: rest).map (encodeMsg al p)) st
        = trackRun compiles (rest.map (encodeMsg al p))
            (trackStep compiles st (encodeMsg al p b)) := by
      simp [trackRun, List.foldl]
    cases b with
    | true =>
      have hstep : countReq (trackStep compiles st (encodeMsg al p true)) al p
          = countReq st al p + 1 := by
        simpa [encodeMsg, trackStep] using countReq_start compiles st al p
      have hrest := ih (trackStep compiles st (encodeMsg al p true)) ?_
      · rw [hrun, hrest, hstep]
        simp [List.countP_cons]
        omega
      · intro n
        have hn := h (n + 1)
        simp [List.take_succ_cons, List.countP_cons] at hn
        rw [hstep]
        omega
    | false =>
      have h1 := h 1
      simp [List.take_succ_cons, List.countP_cons] at h1
      have hc : 1 ≤ countReq st al p := by omega
      have hstep : countReq (trackStep compiles st (encodeMsg al p false)) al p
          = countReq st al p - 1 := by
        simpa [encodeMsg, trackStep] using countReq_stop st al p
      have hrest := ih (trackStep compiles st (encodeMsg al p false)) ?_
      · rw [hrun, hrest, hstep]
        simp [List.countP_cons]
        omega
      · intro n
        have hn := h (n + 1)
        simp [List.take_succ_cons, List.countP_cons] at hn
        rw [hstep]
        omega

/-- **C3.** After the on-demand tracker processes a sequence of
`start_on_demand(al, [p])` (encoded `true`) and `stop_on_demand(al, [p])`
(encoded `false`) messages in which no prefix has more stops than
starts, the multiset for the alias holds exactly N − M entries of
source `p` (N starts, M stops); a `stop_on_demand` with no matching
entry — the alias unknown or its multiset without `p` — is a state-
preserving no-op (the handler is total, it cannot crash); and every
effective `stop_on_demand` removes exactly one occurrence. -/
theorem on_demand_multiset_balance (compiles : String → Bool) (al : Nat)
    (p : String) (bs : List Bool) (st stA stB : SolverState)
    (h0 : countReq st al p = 0)
    (h0A : countReq stA al p = 0)
    (hbal : ∀ n, (bs.take n).countP (fun b => !b) ≤ (bs.take n).countP (fun b => b)) :
    countReq (trackRun compiles (bs.map (encodeMsg al p)) st) al p
      = bs.countP (fun b => b) - bs.countP (fun b => !b) ∧
    stopOnDemand [(al, [p])] stA = stA ∧
    countReq (stopOnDemand [(al, [p])] stB) al p = countReq stB al p - 1 := by
  refine ⟨?_, stopOnDemand_noop stA al p h0A, countReq_stop stB al p⟩
  have hmain := countReq_trackRun compiles al p bs st
    (fun n => by rw [h0]; simpa using hbal n)
  rw [hmain, h0]
  simp

/-- Witness for `on_demand_multiset_balance`: two starts then one stop
of the pattern `"x"` for alias 1, from an empty registry, leave one
entry; a stop on a state without `"x"` is a no-op; a stop on a state
holding one `"x"` entry leaves zero. -/
theorem on_demand_multiset_balance_witness :
    countReq (trackRun (fun _ => true)
        ([true, true, false].map (encodeMsg 1 "x")) ⟨[], []⟩) 1 "x"
      = [true, true, false].countP (fun b => b)
        - [true, true, false].countP (fun b => !b) ∧
    stopOnDemand [(1, ["x"])] ⟨[], []⟩ = ⟨[], []⟩ ∧
    countReq (stopOnDemand [(1, ["x"])] ⟨[(1, [⟨"x", true⟩])], []⟩) 1 "x"
      = countReq ⟨[(1, [⟨"x", true⟩])], []⟩ 1 "x" - 1 :=
  on_demand_multiset_balance (fun _ => true) 1 "x" [true, true, false]
    ⟨[], []⟩ ⟨[], []⟩ ⟨[(1, [⟨"x", true⟩])], []⟩ (by decide) (by decide)
    (by
      intro n
      match n with
      | 0 => decide
      | 1 => decide
      | 2 => decide
      | n + 3 =>
        rw [List.take_of_length_le (by simp)]
        decide)
